import Mathlib

/-!
# Verification of the use-fast-context store core

Shallow embedding of the state-sharing utilities in
`src/utils/createContextStore.tsx` and `src/utils/createStatePublisher.tsx`
(the latter appears in the repository next to `src/hooks/useRenderTimes.ts`),
together with the parts of the React hook contract the code relies on
(`useCallback`, `useMemo`, `useEffect` dependency comparison,
`useSyncExternalStore` client snapshots).

JavaScript runtime values are modelled by `JSVal`; `typeof`, object spread
(including the quirks the code depends on: `typeof null` is the string
"object", spreading a string contributes its indexed characters, spreading
numbers, booleans, `null` and `undefined` contributes nothing) are modelled
faithfully. The mutable cell created by `useStoreData` / `useSharedState` is
the `Cell` structure; its `set` returns the new cell state together with the
list of subscriber callbacks invoked (in iteration order of the JS `Set`,
each exactly once), which makes the synchronous notify-on-set visible to the
theorems.
-/

namespace FastContext

mutual
/-- Model of a JavaScript runtime value as stored in the cell: strings,
numbers, booleans, null, undefined, and plain objects given as their own
enumerable string-keyed entries in insertion order. -/
inductive JSVal where
  | str : String → JSVal
  | num : Int → JSVal
  | boolean : Bool → JSVal
  | null : JSVal
  | undef : JSVal
  | obj : JSEntries → JSVal
deriving Repr, DecidableEq

/-- Entry list of a JavaScript object: string keys with values, in
insertion order. -/
inductive JSEntries where
  | nil : JSEntries
  | cons : String → JSVal → JSEntries → JSEntries
deriving Repr, DecidableEq
end

/-- Build an entry list from a Lean list of key-value pairs. -/
def JSEntries.ofList : List (String × JSVal) → JSEntries
  | [] => .nil
  | (k, v) :: rest => .cons k v (JSEntries.ofList rest)

/-- Model of the JavaScript test `typeof v === "object"`: true for plain
objects and, by the well-known JavaScript quirk, for `null`; false for
strings, numbers, booleans and `undefined`. -/
def JSVal.typeofObject : JSVal → Bool
  | .obj _ => true
  | .null => true
  | _ => false

/-- Own enumerable entries contributed by a value under object spread:
an object contributes its entries; a string contributes its indexed
characters under the keys "0", "1", ...; numbers, booleans, null and
undefined contribute nothing. -/
def JSVal.ownEnumerableEntries : JSVal → JSEntries
  | .obj kvs => kvs
  | .str s =>
      JSEntries.ofList (s.data.enum.map (fun p => (toString p.1, JSVal.str (String.mk [p.2]))))
  | _ => .nil

/-- Assignment of one key into an entry list: overwrite in place when the
key is present, append otherwise (JavaScript property assignment order). -/
def setEntry : JSEntries → String → JSVal → JSEntries
  | .nil, k, v => .cons k v .nil
  | .cons k' v' rest, k, v =>
      if k' = k then .cons k' v rest else .cons k' v' (setEntry rest k v)

/-- Assign the entries of the second list one by one into the accumulator. -/
def assignEntries (acc : JSEntries) : JSEntries → JSEntries
  | .nil => acc
  | .cons k v rest => assignEntries (setEntry acc k v) rest

/-- Model of the object literal with two spreads, as written in the source:
the expression evaluates to a freshly constructed object whose entries are
the own enumerable entries of the first value assigned in order, then those
of the second value assigned over them. -/
def spread2 (a b : JSVal) : JSVal :=
  .obj (assignEntries (assignEntries .nil a.ownEnumerableEntries) b.ownEnumerableEntries)

/-- Argument of the `set` function of `useStoreData` in
`createContextStore.tsx`: either a plain value (the TypeScript type is
`Partial<TStore>`, but at runtime any value may arrive) or an update
function from the previous value to the next (`PrevStateFnUpdate`). -/
inductive Upd where
  | val : JSVal → Upd
  | fn : (JSVal → JSVal) → Upd

/-- Next-value computation of `set` in `createContextStore.tsx`
(lines 66 to 75), translated branch for branch:
if `typeof value` is "function", the store becomes `value(store.current)`;
else if `typeof value` is not "object", the store becomes `value`;
else the store becomes the object literal spread
`\x7b ...store.current, ...value \x7d`. -/
def nextValue (current : JSVal) : Upd → JSVal
  | .fn f => f current
  | .val v => if v.typeofObject then spread2 current v else v

/-- The three branches of `set` in `createContextStore.tsx`. -/
inductive SetBranch where
  | fnBranch : SetBranch
  | replaceBranch : SetBranch
  | mergeBranch : SetBranch
deriving Repr, DecidableEq

/-- Which branch of `set` a given update takes, following the source order
of the `typeof` tests: function, then non-object (replace), else merge. -/
def setBranchOf : Upd → SetBranch
  | .fn _ => .fnBranch
  | .val v => if v.typeofObject then .mergeBranch else .replaceBranch

/-- The merge branch of `set` evaluates the object literal
`\x7b ...store.current, ...value \x7d`; in JavaScript an object literal
always constructs a fresh object, so the stored value gets a new object
identity exactly when that branch is taken. -/
def setAllocatesFreshObject (u : Upd) : Bool :=
  setBranchOf u == SetBranch.mergeBranch

/-- Modelled from the spec wording of claim C1 for comparison with the
source function `nextValue`: if the update is callable, apply it to the
previous value; otherwise, if the previous value is a non-object primitive,
the next value is the update itself (full replacement); otherwise the next
value is the update shallow-merged into the previous value. The branch is
on the shape of the PREVIOUS value, where the source branches on the type
of the UPDATE. -/
def specRuleNext (current : JSVal) : Upd → JSVal
  | .fn f => f current
  | .val v =>
      match current with
      | .obj _ => spread2 current v
      | _ => v

/-- The mutable cell created once per Provider mount by `useStoreData`
(and by `useSharedState` in `createStatePublisher.tsx`): a current value
held in a ref plus a JS `Set` of zero-argument subscriber callbacks.
Callbacks are modelled by numeric identities; the `Set` is modelled by its
iteration-order list, which is duplicate free because `Set.add` ignores
already-present elements. -/
structure Cell where
  value : JSVal
  subscribers : List Nat
deriving Repr, DecidableEq

/-- The cell read surface: `get` returns the current value synchronously. -/
def Cell.get (c : Cell) : JSVal :=
  c.value

/-- The cell write surface `set` of `createContextStore.tsx`: compute the
next value by `nextValue`, store it, then call every callback in the
subscriber set once, via `subscribers.current.forEach`. The returned list
is the sequence of callbacks invoked before `set` returns. -/
def Cell.set (c : Cell) (u : Upd) : Cell × List Nat :=
  let updated : Cell := { c with value := nextValue c.value u }
  (updated, c.subscribers)

/-- The `set` of `createStatePublisher.tsx` (lines 72 to 75): always the
spread merge `\x7b ...state.current, ...value \x7d`, then notify every
subscriber. The update there is always a plain value, never a function. -/
def Cell.publisherSet (c : Cell) (v : JSVal) : Cell × List Nat :=
  let updated : Cell := { c with value := spread2 c.value v }
  (updated, c.subscribers)

/-- The cell `subscribe`: `subscribers.current.add(callback)`. A JS `Set`
keeps insertion order and ignores an element that is already present. -/
def Cell.subscribe (c : Cell) (cb : Nat) : Cell :=
  if cb ∈ c.subscribers then c
  else { c with subscribers := c.subscribers ++ [cb] }

/-- The unregister closure returned by `subscribe`:
`() => subscribers.current.delete(callback)`. Deleting an element that is
not in a JS `Set` is a no-op and never an error. -/
def Cell.unsubscribe (c : Cell) (cb : Nat) : Cell :=
  { c with subscribers := c.subscribers.erase cb }

/-- Run a sequence of `set` calls on a cell, collecting the concatenated
notification log. -/
def runSets (c : Cell) : List Upd → Cell × List Nat
  | [] => (c, [])
  | u :: us =>
      let step := c.set u
      let rest := runSets step.1 us
      (rest.1, step.2 ++ rest.2)

/-- Keys of an entry list, in order. -/
def JSEntries.keys : JSEntries → List String
  | .nil => []
  | .cons k _ rest => k :: rest.keys

/-- Concatenation of entry lists. -/
def JSEntries.append : JSEntries → JSEntries → JSEntries
  | .nil, b => b
  | .cons k v rest, b => .cons k v (rest.append b)

theorem JSEntries.append_nil : ∀ a : JSEntries, a.append .nil = a
  | .nil => rfl
  | .cons k v rest => by simp [JSEntries.append, JSEntries.append_nil rest]

theorem JSEntries.append_assoc : ∀ a b c : JSEntries,
    (a.append b).append c = a.append (b.append c)
  | .nil, _, _ => rfl
  | .cons k v rest, b, c => by
      simp [JSEntries.append, JSEntries.append_assoc rest b c]

theorem JSEntries.keys_append : ∀ a b : JSEntries,
    (a.append b).keys = a.keys ++ b.keys
  | .nil, _ => rfl
  | .cons k v rest, b => by
      simp [JSEntries.append, JSEntries.keys, JSEntries.keys_append rest b]

theorem setEntry_eq_append_of_not_mem {k : String} (v : JSVal) :
    ∀ acc : JSEntries, k ∉ acc.keys → setEntry acc k v = acc.append (.cons k v .nil)
  | .nil, _ => rfl
  | .cons k' v' rest, h => by
      have h' : ¬(k = k' ∨ k ∈ rest.keys) := by simpa [JSEntries.keys] using h
      push_neg at h'
      have hk : ¬(k' = k) := fun e => h'.1 e.symm
      simp [setEntry, JSEntries.append, hk,
        setEntry_eq_append_of_not_mem v rest h'.2]

theorem assignEntries_eq_append :
    ∀ (src acc : JSEntries), src.keys.Nodup → (∀ k ∈ src.keys, k ∉ acc.keys) →
      assignEntries acc src = acc.append src
  | .nil, acc, _, _ => by simp [assignEntries, JSEntries.append_nil]
  | .cons k v rest, acc, hd, hdisj => by
      have hk : k ∉ acc.keys := hdisj k (by simp [JSEntries.keys])
      have hd' : rest.keys.Nodup := by
        simpa [JSEntries.keys] using hd.of_cons
      have hknotrest : k ∉ rest.keys := by
        have := hd
        simp [JSEntries.keys, List.nodup_cons] at this
        exact this.1
      have hdisj' : ∀ k' ∈ rest.keys, k' ∉ (acc.append (.cons k v .nil)).keys := by
        intro k' hk'
        have h1 : k' ∉ acc.keys := hdisj k' (by simp [JSEntries.keys, hk'])
        have h2 : k' ≠ k := fun e => hknotrest (e ▸ hk')
        simp [JSEntries.keys_append, JSEntries.keys, h1, h2]
      calc assignEntries acc (.cons k v rest)
          = assignEntries (setEntry acc k v) rest := rfl
        _ = assignEntries (acc.append (.cons k v .nil)) rest := by
              rw [setEntry_eq_append_of_not_mem v acc hk]
        _ = (acc.append (.cons k v .nil)).append rest :=
              assignEntries_eq_append rest _ hd' hdisj'
        _ = acc.append (.cons k v rest) := by
              rw [JSEntries.append_assoc]; rfl

/-- Assigning a duplicate-free entry list into the empty object reproduces
the list unchanged. -/
theorem assignEntries_nil_of_nodup (src : JSEntries) (h : src.keys.Nodup) :
    assignEntries .nil src = src := by
  have := assignEntries_eq_append src .nil h (by intro k _; simp [JSEntries.keys])
  simpa [JSEntries.append] using this

theorem runSets_value (us : List Upd) : ∀ c : Cell,
    (runSets c us).1.value = us.foldl nextValue c.value := by
  induction us with
  | nil => intro c; rfl
  | cons u us ih =>
      intro c
      simp only [runSets, List.foldl_cons]
      exact ih ((c.set u).1)

theorem runSets_subscribers (us : List Upd) : ∀ c : Cell,
    (runSets c us).1.subscribers = c.subscribers := by
  induction us with
  | nil => intro c; rfl
  | cons u us ih =>
      intro c
      simp only [runSets]
      exact ih ((c.set u).1)

theorem runSets_log_mem (us : List Upd) : ∀ (c : Cell) (cb : Nat),
    cb ∈ (runSets c us).2 → cb ∈ c.subscribers := by
  induction us with
  | nil => intro c cb h; simp [runSets] at h
  | cons u us ih =>
      intro c cb h
      simp only [runSets, List.mem_append] at h
      rcases h with h | h
      · exact h
      · exact ih ((c.set u).1) cb h

/-- Model of the JavaScript expression `displayName || "Provider"` used in
both error messages of `createContextStore.tsx`: `undefined` (here `none`)
and the empty string are falsy, so they fall back to "Provider". -/
def jsOrProvider : Option String → String
  | none => "Provider"
  | some s => if s = "" then "Provider" else s

/-- Error message of `useStoreValue` in `createContextStore.tsx` line 118. -/
def storeValueErrMsg (displayName : Option String) : String :=
  "useStoreValue must be used inside a " ++ jsOrProvider displayName

/-- Error message of `useStoreDispatch` in `createContextStore.tsx`
line 132. -/
def storeDispatchErrMsg (displayName : Option String) : String :=
  "useStoreDispatch must be used inside a " ++ jsOrProvider displayName

/-- Error message of `useSharedValue` in `createStatePublisher.tsx`: a
string literal that does not interpolate the factory displayName, even
though the displayName is in the enclosing closure scope. -/
def sharedValueErrMsg (_displayName : Option String) : String :=
  "useSharedState must be used inside a Provider"

/-- Model of `useStoreValue`: the context read yields `none` when no
enclosing Provider exists (the context holds its `undefined` default), in
which case the hook throws before computing any snapshot; otherwise
`getSnapshot` reads the full current value `store.get()` and applies the
selector when one is given, and the client render of
`useSyncExternalStore(store.subscribe, getSnapshot, ...)` returns
`getSnapshot()`. The third argument is the server snapshot thunk, not used
by a client render. -/
def useStoreValue (displayName : Option String) (ctx : Option JSVal)
    (selector : Option (JSVal → JSVal)) (_ssrSelector : Option (JSVal → JSVal)) :
    Except String JSVal :=
  match ctx with
  | none => .error (storeValueErrMsg displayName)
  | some current =>
      let getSnapshot : Unit → JSVal := fun _ =>
        match selector with
        | some sel => sel current
        | none => current
      .ok (getSnapshot ())

/-- Model of `useStoreDispatch`: reads the dispatch context, whose value is
the reference identity of the cell `set` function; throws when the context
holds its `undefined` default. -/
def useStoreDispatch (displayName : Option String) (ctx : Option Nat) :
    Except String Nat :=
  match ctx with
  | none => .error (storeDispatchErrMsg displayName)
  | some setRef => .ok setRef

/-- Model of `useSharedValue` in `createStatePublisher.tsx`: same snapshot
contract as `useStoreValue`, but the thrown message is the fixed
`useSharedState` string. -/
def useSharedValue (displayName : Option String) (ctx : Option JSVal)
    (selector : Option (JSVal → JSVal)) (_ssrSelector : Option (JSVal → JSVal)) :
    Except String JSVal :=
  match ctx with
  | none => .error (sharedValueErrMsg displayName)
  | some current =>
      let getSnapshot : Unit → JSVal := fun _ =>
        match selector with
        | some sel => sel current
        | none => current
      .ok (getSnapshot ())

/-- Error projection of a hook result: the raised message, or `none` when
the hook returned a snapshot normally. -/
def errorOf {α : Type} : Except String α → Option String
  | .error e => some e
  | .ok _ => none

/-- Dependency array `[set, Object.values(rest)]` of the `useEffect` in the
publisher Provider (`createStatePublisher.tsx` lines 98 to 101), reduced to
the reference identities React compares: the identity of the `set`
function and the identity of the array returned by `Object.values`. -/
structure EffectDeps where
  setRefId : Nat
  valuesArrayId : Nat
deriving Repr, DecidableEq

/-- The dependency array built during render number `renderIdx`: the `set`
identity is the stable `useCallback` reference, while `Object.values(rest)`
allocates a fresh array on every call, so its identity is distinct on every
render; we index it by the render number. -/
def providerEffectDeps (setRefId : Nat) (renderIdx : Nat) : EffectDeps :=
  { setRefId := setRefId, valuesArrayId := renderIdx }

/-- React compares dependency arrays elementwise with `Object.is`; for the
two references in this array that is identity equality. -/
def depsEqual (a b : EffectDeps) : Bool :=
  a.setRefId == b.setRefId && a.valuesArrayId == b.valuesArrayId

/-- Whether the Provider effect runs after committed render `n`: effects
always run after the mount render, and after a re-render exactly when the
new dependency array differs from the previous one under `Object.is`. -/
def effectRuns (setRefId : Nat) : Nat → Bool
  | 0 => true
  | n + 1 => !depsEqual (providerEffectDeps setRefId n) (providerEffectDeps setRefId (n + 1))

/-- Whether the enumerated prop values changed, by shallow comparison
across the enumerated keys, between render `n - 1` and render `n`; the
mount render counts as changed. -/
def propsChangedAt (props : Nat → JSEntries) : Nat → Bool
  | 0 => true
  | n + 1 => props (n + 1) != props n

/-- Effect body of the publisher Provider at render `n`: when the effect
runs, it calls `set(rest)`, the merge update with the enumerated props,
notifying the subscribers; otherwise the cell is untouched and nobody is
notified. -/
def providerStep (setRefId : Nat) (c : Cell) (p : JSEntries) (n : Nat) :
    Cell × List Nat :=
  if effectRuns setRefId n then c.publisherSet (.obj p) else (c, [])

/-- Cell state and notification log of render `n` of the publisher
Provider, for a given stream of enumerated prop values per render. -/
def providerRun (setRefId : Nat) (init : Cell) (props : Nat → JSEntries) :
    Nat → Cell × List Nat
  | 0 => providerStep setRefId init (props 0) 0
  | n + 1 => providerStep setRefId (providerRun setRefId init props n).1 (props (n + 1)) (n + 1)

/-- Model of the `useMemo` computing `element` in the publisher Provider
(`createStatePublisher.tsx` line 105): with `UNSAFE_stable_children` the
dependency array is empty, so after mount the memo never recomputes; without
it the dependency array is `[children]`, so the memo recomputes exactly when
the `children` reference changes between renders. Children references are
numbers standing for object identities. -/
def memoElement (stable : Bool) (childrenRef : Nat → Nat) : Nat → Nat
  | 0 => childrenRef 0
  | n + 1 =>
      if stable then memoElement stable childrenRef n
      else if childrenRef (n + 1) == childrenRef n then memoElement stable childrenRef n
      else childrenRef (n + 1)

/-- Whether the memo body recomputed at render `n` (the mount render always
computes). -/
def memoRecomputed (stable : Bool) (childrenRef : Nat → Nat) : Nat → Bool
  | 0 => true
  | n + 1 => if stable then false else childrenRef (n + 1) != childrenRef n

/-- Reference identity of a `useCallback(fn, [])` value at render `n`:
computed at mount from the fresh function identity of that render, then
kept, because the empty dependency array never changes. This is the
identity of the cell `set` function that the dispatch context carries. -/
def useCallbackIdentity (freshIds : Nat → Nat) : Nat → Nat
  | 0 => freshIds 0
  | n + 1 => useCallbackIdentity freshIds n

theorem useCallbackIdentity_eq_mount (freshIds : Nat → Nat) :
    ∀ n, useCallbackIdentity freshIds n = freshIds 0
  | 0 => rfl
  | n + 1 => useCallbackIdentity_eq_mount freshIds n

theorem effectRuns_true (setRefId : Nat) : ∀ n, effectRuns setRefId n = true
  | 0 => rfl
  | n + 1 => by
      have h : (n == n + 1) = false := beq_eq_false_iff_ne.mpr (by omega)
      simp [effectRuns, depsEqual, providerEffectDeps, h]

theorem providerRun_cell_subscribers (s : Nat) (init : Cell) (props : Nat → JSEntries) :
    ∀ n, (providerRun s init props n).1.subscribers = init.subscribers
  | 0 => by
      simp [providerRun, providerStep, effectRuns, Cell.publisherSet]
  | n + 1 => by
      simp only [providerRun, providerStep, effectRuns_true, if_true]
      simpa [Cell.publisherSet] using providerRun_cell_subscribers s init props n

theorem providerRun_log (s : Nat) (init : Cell) (props : Nat → JSEntries) :
    ∀ n, (providerRun s init props n).2 = init.subscribers
  | 0 => by
      simp [providerRun, providerStep, effectRuns, Cell.publisherSet]
  | n + 1 => by
      simp only [providerRun, providerStep, effectRuns_true, if_true]
      simpa [Cell.publisherSet] using providerRun_cell_subscribers s init props n

theorem providerRun_value (s : Nat) (init : Cell) (props : Nat → JSEntries) :
    ∀ n, (providerRun s init props n).1.value
      = ((List.range (n + 1)).map props).foldl (fun v p => spread2 v (.obj p)) init.value
  | 0 => by
      simp [providerRun, providerStep, effectRuns, Cell.publisherSet, List.range_succ]
  | n + 1 => by
      rw [show (n + 1) + 1 = (n + 1) + 1 from rfl, List.range_succ]
      simp only [providerRun, providerStep, effectRuns_true, if_true, List.map_append,
        List.foldl_append, List.map_cons, List.map_nil, List.foldl_cons, List.foldl_nil]
      simpa [Cell.publisherSet] using
        congrArg (fun v => spread2 v (.obj (props (n + 1)))) (providerRun_value s init props n)

theorem memoElement_stable (cs : Nat → Nat) : ∀ n, memoElement true cs n = cs 0
  | 0 => rfl
  | n + 1 => by simpa [memoElement] using memoElement_stable cs n

theorem memoElement_tracks (cs : Nat → Nat) : ∀ n, memoElement false cs n = cs n
  | 0 => rfl
  | n + 1 => by
      cases h : cs (n + 1) == cs n with
      | false => simp [memoElement, h]
      | true =>
          have he : cs (n + 1) = cs n := by simpa using h
          simp [memoElement, h, memoElement_tracks cs n, he]

/-- The props stream of a Provider whose enumerated prop values never
change between renders, used as the concrete input refuting claim C2. -/
def constThemeProps : Nat → JSEntries :=
  fun _ => .ofList [("theme", .str "light")]

section ClaimTheorems

/-- Claim C1, counterexample. The claim states the rule of the spec, which
branches on the shape of the PREVIOUS value: a partial-mapping update
against a non-object current value is treated as full replacement. The
source `set` instead branches on the type of the UPDATE: an object-typed
update always takes the spread-merge branch. With current value the string
"ab" and update the mapping with the single entry x = 1, the code spreads
the string indexed characters into the result, so `get` after the call
yields the object with entries 0 = "a", 1 = "b", x = 1, while the claimed
rule yields the mapping x = 1 alone; the two differ. -/
theorem c1_claimed_prev_value_rule_counterexample :
    ((Cell.mk (.str "ab") []).set (.val (.obj (.ofList [("x", .num 1)])))).1.get
        = .obj (.ofList [("0", .str "a"), ("1", .str "b"), ("x", .num 1)])
    ∧ specRuleNext (.str "ab") (.val (.obj (.ofList [("x", .num 1)])))
        = .obj (.ofList [("x", .num 1)])
    ∧ ((Cell.mk (.str "ab") []).set (.val (.obj (.ofList [("x", .num 1)])))).1.get
        ≠ specRuleNext (.str "ab") (.val (.obj (.ofList [("x", .num 1)]))) := by
  decide

/-- Claim C1, amended. For every sequence of calls to the store cell `set`,
`get()` after each call equals the value computed by the rule the code
implements, which is keyed on the type of the UPDATE: a callable update is
applied to the previous value; a non-object primitive update (string,
number, boolean, undefined) replaces the value wholesale; an object-typed
update (plain objects and also null) is shallow-merged into the previous
value by the JavaScript spread, regardless of the shape of the previous
value (so against a string, the string indexed characters are spread into
the result rather than the update being a full replacement). -/
theorem c1_set_sequence_follows_update_typed_rule (c : Cell) (us : List Upd) :
    (runSets c us).1.get = us.foldl nextValue c.value := by
  simpa [Cell.get] using runSets_value us c

/-- Claim C2, counterexample. The claim says that on renders where no
enumerated prop value changed, the cell is not updated and subscribers are
not notified. But the effect dependency array is
`[set, Object.values(rest)]`, whose second element is a freshly allocated
array every render, so the `Object.is` comparison fails on every re-render
and the effect runs every time. Concretely: with the prop values constant
across renders 0 and 1, the props are unchanged at render 1 by shallow
comparison, yet after render 1 the subscriber with identity 7 is notified
again. -/
theorem c2_only_on_changed_props_counterexample :
    propsChangedAt constThemeProps 1 = false
    ∧ effectRuns 0 1 = true
    ∧ (providerRun 0 (Cell.mk (.obj .nil) [7]) constThemeProps 1).2 = [7] := by
  refine ⟨by decide, by decide, ?_⟩
  simpa using providerRun_log 0 (Cell.mk (.obj .nil) [7]) constThemeProps 1

/-- Claim C2, amended. Because the dependency array of the Provider effect
contains the freshly allocated result of `Object.values(rest)`, the effect
runs after EVERY committed render of the publisher Wrapper, not only when
the prop values change: after render n the cell value is the fold of the
spread-merges of the props of ALL renders up to n over the initial value,
and every registered subscriber is notified at every render, including
renders where no enumerated prop value changed. -/
theorem c2_provider_effect_applies_props_every_render (setRefId : Nat)
    (init : Cell) (props : Nat → JSEntries) (n : Nat) :
    effectRuns setRefId n = true
    ∧ (providerRun setRefId init props n).2 = init.subscribers
    ∧ (providerRun setRefId init props n).1.value
        = ((List.range (n + 1)).map props).foldl (fun v p => spread2 v (.obj p)) init.value :=
  ⟨effectRuns_true setRefId n, providerRun_log setRefId init props n,
    providerRun_value setRefId init props n⟩

/-- Claim C3. Each of the three hooks raises an error exactly when its
context holds the `undefined` default, in other words when there is no
enclosing Wrapper, and returns a snapshot otherwise; the raised message is
the single "must be used inside" message of that hook, so this is the only
error kind the hooks produce, and an error result carries no render
output. -/
theorem c3_hooks_error_exactly_without_provider (dn : Option String)
    (sel ssr : Option (JSVal → JSVal)) (ctx : Option JSVal) (dctx : Option Nat) :
    errorOf (useStoreValue dn ctx sel ssr)
        = (if ctx.isNone then some (storeValueErrMsg dn) else none)
    ∧ errorOf (useStoreDispatch dn dctx)
        = (if dctx.isNone then some (storeDispatchErrMsg dn) else none)
    ∧ errorOf (useSharedValue dn ctx sel ssr)
        = (if ctx.isNone then some (sharedValueErrMsg dn) else none) := by
  refine ⟨?_, ?_, ?_⟩
  · cases ctx <;> rfl
  · cases dctx <;> rfl
  · cases ctx <;> rfl

/-- Claim C4. The cell `set` first stores the next value and then invokes
every currently registered subscriber callback exactly once before
returning: the post-state value is the computed next value, the
notification sequence is exactly the subscriber set at call time (each
member once, non-members never), the subscriber set itself is untouched,
and `get` on the post-state already returns the new value. -/
theorem c4_set_updates_value_then_notifies_each_subscriber_once
    (c : Cell) (u : Upd) (cb : Nat) (hd : c.subscribers.Nodup) :
    (c.set u).1.get = nextValue c.value u
    ∧ (c.set u).1.subscribers = c.subscribers
    ∧ (c.set u).2 = c.subscribers
    ∧ (cb ∈ c.subscribers → (c.set u).2.count cb = 1)
    ∧ (cb ∉ c.subscribers → (c.set u).2.count cb = 0) := by
  refine ⟨rfl, rfl, rfl, ?_, ?_⟩
  · intro h
    simpa [Cell.set] using List.count_eq_one_of_mem hd h
  · intro h
    simpa [Cell.set] using List.count_eq_zero.mpr h

/-- Witness for claim C4 at a concrete cell with one subscriber. -/
theorem c4_set_notification_witness :
    ([3] : List Nat).Nodup
    ∧ ((Cell.mk (.num 0) [3]).set (.val (.num 1))).2.count 3 = 1 :=
  ⟨by decide,
    (c4_set_updates_value_then_notifies_each_subscriber_once
      (Cell.mk (.num 0) [3]) (.val (.num 1)) 3 (by decide)).2.2.2.1 (by decide)⟩

/-- Claim C5. With `UNSAFE_stable_children`, the memoized children element
is the one computed at mount forever: the memo never recomputes after
render 0 and the element at every render is the children reference of
render 0, regardless of later changes. Without the flag, the element at
render n is the children reference of render n, and the memo recomputes at
a re-render exactly when the children reference differs from the previous
render. -/
theorem c5_stable_children_memo (cs : Nat → Nat) (n : Nat) :
    memoElement true cs n = cs 0
    ∧ memoRecomputed true cs (n + 1) = false
    ∧ memoElement false cs n = cs n
    ∧ memoRecomputed false cs (n + 1) = (cs (n + 1) != cs n) :=
  ⟨memoElement_stable cs n, rfl, memoElement_tracks cs n, rfl⟩

/-- Claim C6. The dispatch context carries the `useCallback` identity of
the cell `set` function, whose empty dependency array makes it the mount
identity at every render, so `useStoreDispatch` returns the same function
reference at every render of every consumer; and a consumer that never
subscribed to the cell (a dispatch-only consumer) appears in no
notification log of any sequence of `set` calls, so value updates cause it
zero re-renders. -/
theorem c6_dispatch_identity_stable_and_dispatch_only_consumer_silent
    (dn : Option String) (freshIds : Nat → Nat) (n m : Nat)
    (c : Cell) (us : List Upd) (cb : Nat) (h : cb ∉ c.subscribers) :
    useStoreDispatch dn (some (useCallbackIdentity freshIds n))
        = useStoreDispatch dn (some (useCallbackIdentity freshIds m))
    ∧ useStoreDispatch dn (some (useCallbackIdentity freshIds n)) = .ok (freshIds 0)
    ∧ (runSets c us).2.count cb = 0 := by
  refine ⟨?_, ?_, ?_⟩
  · rw [useCallbackIdentity_eq_mount, useCallbackIdentity_eq_mount]
  · rw [useCallbackIdentity_eq_mount]; rfl
  · exact List.count_eq_zero.mpr (fun hm => h (runSets_log_mem us c cb hm))

/-- Witness for claim C6: a dispatch-only consumer with identity 9 is not
notified by a concrete update sequence on a cell subscribed by 1. -/
theorem c6_dispatch_only_witness :
    (9 : Nat) ∉ ([1] : List Nat)
    ∧ (runSets (Cell.mk (.num 0) [1]) [.val (.num 5), .val (.num 6)]).2.count 9 = 0 :=
  ⟨by decide,
    (c6_dispatch_identity_stable_and_dispatch_only_consumer_silent
      none (fun i => i) 2 5 (Cell.mk (.num 0) [1]) [.val (.num 5), .val (.num 6)] 9
      (by decide)).2.2⟩

/-- Claim C7. Inside a live Wrapper the hook snapshot is computed from the
full current value `get()`: with no selector the hook returns the entire
current value, and with a selector it returns the selector applied to the
full current value; this holds for `useStoreValue` and `useSharedValue`
alike. -/
theorem c7_snapshot_is_selector_of_current_value (dn : Option String)
    (current : JSVal) (sel : JSVal → JSVal) (ssr : Option (JSVal → JSVal)) :
    useStoreValue dn (some current) none ssr = .ok current
    ∧ useStoreValue dn (some current) (some sel) ssr = .ok (sel current)
    ∧ useSharedValue dn (some current) none ssr = .ok current
    ∧ useSharedValue dn (some current) (some sel) ssr = .ok (sel current) :=
  ⟨rfl, rfl, rfl, rfl⟩

/-- Claim C8. `subscribe` registers the callback (it is in the subscriber
set afterwards, and registering twice is the same as registering once,
since the JS `Set` ignores present elements); the unregister operation on a
callback that is not currently registered is a no-op leaving the cell
unchanged, and unregistering a second time equals unregistering once. All
operations are total: no error is ever raised. -/
theorem c8_subscribe_unregister_idempotent (c : Cell) (cb : Nat)
    (hd : c.subscribers.Nodup) :
    cb ∈ (c.subscribe cb).subscribers
    ∧ (c.subscribe cb).subscribe cb = c.subscribe cb
    ∧ (cb ∉ c.subscribers → c.unsubscribe cb = c)
    ∧ (c.unsubscribe cb).unsubscribe cb = c.unsubscribe cb := by
  have hcount : c.subscribers.count cb ≤ 1 := List.nodup_iff_count_le_one.mp hd cb
  have h0 : (c.subscribers.erase cb).count cb = 0 := by
    rw [List.count_erase_self]; omega
  have hne : cb ∉ c.subscribers.erase cb := List.count_eq_zero.mp h0
  refine ⟨?_, ?_, ?_, ?_⟩
  · by_cases h : cb ∈ c.subscribers
    · simp [Cell.subscribe, h]
    · simp [Cell.subscribe, h]
  · by_cases h : cb ∈ c.subscribers
    · simp [Cell.subscribe, h]
    · simp [Cell.subscribe, h]
  · intro h
    cases c with
    | mk v subs => simp [Cell.unsubscribe, List.erase_of_not_mem h]
  · cases c with
    | mk v subs =>
        simp only [Cell.unsubscribe] at hne ⊢
        simp [List.erase_of_not_mem hne]

/-- Witness for claim C8: removing the unregistered callback 5 from a cell
whose subscriber set is the singleton 2 leaves the cell unchanged. -/
theorem c8_unregister_noop_witness :
    ([2] : List Nat).Nodup
    ∧ (5 : Nat) ∉ ([2] : List Nat)
    ∧ (Cell.mk (.num 0) [2]).unsubscribe 5 = Cell.mk (.num 0) [2] :=
  ⟨by decide, by decide,
    (c8_subscribe_unregister_idempotent (Cell.mk (.num 0) [2]) 5 (by decide)).2.2.1
      (by decide)⟩

/-- Claim C9. The `useSharedValue` error message is the fixed string
"useSharedState must be used inside a Provider" whatever displayName the
factory received, while the two store hooks interpolate the displayName
into their messages when a non-empty one was given, and fall back to
"Provider" when none was given. -/
theorem c9_error_message_shapes (dn : String) (h : dn ≠ "") :
    sharedValueErrMsg (some dn) = "useSharedState must be used inside a Provider"
    ∧ sharedValueErrMsg none = "useSharedState must be used inside a Provider"
    ∧ useSharedValue (some dn) none none none
        = .error "useSharedState must be used inside a Provider"
    ∧ storeValueErrMsg (some dn) = "useStoreValue must be used inside a " ++ dn
    ∧ storeDispatchErrMsg (some dn) = "useStoreDispatch must be used inside a " ++ dn
    ∧ storeValueErrMsg none = "useStoreValue must be used inside a Provider"
    ∧ storeDispatchErrMsg none = "useStoreDispatch must be used inside a Provider" := by
  refine ⟨rfl, rfl, rfl, ?_, ?_, rfl, rfl⟩
  · simp [storeValueErrMsg, jsOrProvider, h]
  · simp [storeDispatchErrMsg, jsOrProvider, h]

/-- Witness for claim C9 with the concrete displayName "StoreContext". -/
theorem c9_error_message_witness :
    ("StoreContext" : String) ≠ ""
    ∧ storeValueErrMsg (some "StoreContext")
        = "useStoreValue must be used inside a StoreContext" :=
  ⟨by decide, (c9_error_message_shapes "StoreContext" (by decide)).2.2.2.1⟩

/-- Claim C10. Calling the store cell `set` with the update value null
takes the shallow-merge branch, because `typeof null` is "object": the
merge branch evaluates the spread object literal, which constructs a fresh
object (new identity), whose entries are exactly those of the previous
object value since null spreads to nothing; every registered subscriber is
still notified. -/
theorem c10_set_null_merges_and_notifies (kvs : JSEntries) (subs : List Nat)
    (hk : kvs.keys.Nodup) :
    setBranchOf (.val .null) = .mergeBranch
    ∧ setAllocatesFreshObject (.val .null) = true
    ∧ ((Cell.mk (.obj kvs) subs).set (.val .null)).1.get = .obj kvs
    ∧ ((Cell.mk (.obj kvs) subs).set (.val .null)).2 = subs := by
  refine ⟨rfl, rfl, ?_, rfl⟩
  show nextValue (.obj kvs) (.val .null) = .obj kvs
  show spread2 (.obj kvs) .null = .obj kvs
  show JSVal.obj (assignEntries (assignEntries .nil kvs) .nil) = .obj kvs
  show JSVal.obj (assignEntries .nil kvs) = .obj kvs
  rw [assignEntries_nil_of_nodup kvs hk]

/-- Witness for claim C10 on the concrete object with entry a = 1 and the
subscriber 5. -/
theorem c10_set_null_witness :
    (JSEntries.ofList [("a", .num 1)]).keys.Nodup
    ∧ ((Cell.mk (.obj (.ofList [("a", .num 1)])) [5]).set (.val .null)).1.get
        = .obj (.ofList [("a", .num 1)]) :=
  ⟨by decide,
    (c10_set_null_merges_and_notifies (.ofList [("a", .num 1)]) [5] (by decide)).2.2.1⟩

end ClaimTheorems

end FastContext
